import Mathlib

/-!
Shallow embedding of the YouTube-analyzer repository (content_analyzer.py,
channel_analyzer.py, search_analyzer.py) for checking the natural-language
specification.  Python strings are modelled as `List Char` (with `String`
wrappers at the API boundary), Python dicts produced by `json.loads` as
association lists, Python ints/floats appearing in exact arithmetic as `ℚ`.
Regex-based cleaning stages are modelled as fueled left-to-right scanners
mirroring `re.sub` single-pass semantics.
-/

/-- ASCII fragment of Python's regex `\s` / `str.strip` whitespace. -/
def isPyWs (c : Char) : Bool :=
  c = ' ' || c = '\t' || c = '\n' || c = '\r' || c = '\x0b' || c = '\x0c'

/-- `pat` is a leading subsequence of `s` (char-exact). -/
def leadsWith : List Char → List Char → Bool
  | [], _ => true
  | _ :: _, [] => false
  | a :: as, b :: bs => a = b && leadsWith as bs

def lowerChar (c : Char) : Char := c.toLower

/-- Case-insensitive variant of `leadsWith` (ASCII lowercase folding). -/
def ciLeadsWith (pat s : List Char) : Bool :=
  leadsWith (pat.map lowerChar) (s.map lowerChar)

/-- Does `s` contain `pat` as a contiguous substring? -/
def hasSub (pat : List Char) : List Char → Bool
  | [] => leadsWith pat []
  | c :: rest => leadsWith pat (c :: rest) || hasSub pat rest

def hasChar (c : Char) (s : List Char) : Bool := s.contains c

/-- Python `str.replace(old, new)`: left-to-right, non-overlapping. -/
def replaceSubGo (old new : List Char) : Nat → List Char → List Char
  | 0, s => s
  | _ + 1, [] => []
  | fuel + 1, c :: rest =>
    if leadsWith old (c :: rest) && !old.isEmpty then
      new ++ replaceSubGo old new fuel (List.drop (old.length - 1) rest)
    else
      c :: replaceSubGo old new fuel rest

def replaceSub (old new s : List Char) : List Char := replaceSubGo old new s.length s

/-- Python `str.split(sep)` for a non-empty separator (keeps empty pieces). -/
def splitSubGo (sep : List Char) : Nat → List Char → List Char → List (List Char)
  | 0, s, acc => [acc.reverse ++ s]
  | _ + 1, [], acc => [acc.reverse]
  | fuel + 1, c :: rest, acc =>
    if leadsWith sep (c :: rest) && !sep.isEmpty then
      acc.reverse :: splitSubGo sep fuel (List.drop (sep.length - 1) rest) []
    else
      splitSubGo sep fuel rest (c :: acc)

def splitSub (sep s : List Char) : List (List Char) := splitSubGo sep s.length s []

/-- Python `str.strip()` (whitespace from both ends). -/
def stripWs (s : List Char) : List Char :=
  ((s.dropWhile isPyWs).reverse.dropWhile isPyWs).reverse

/-- Python `str.strip(chars)` restricted to stripping one given char. -/
def stripCharBE (ch : Char) (s : List Char) : List Char :=
  ((s.dropWhile (· = ch)).reverse.dropWhile (· = ch)).reverse

/-- Index of the first occurrence of `c` (Python `str.find`). -/
def findCharIdx (c : Char) : List Char → Option Nat
  | [] => none
  | d :: rest =>
    if d = c then some 0 else (findCharIdx c rest).map (· + 1)

/-- Index of the last occurrence of `c` (Python `str.rfind`). -/
def rfindCharIdx (c : Char) (s : List Char) : Option Nat :=
  (findCharIdx c s.reverse).map (fun i => s.length - 1 - i)

/-- Python `line.split(sep, 1)`: split at first occurrence only. -/
def splitOnceChar (sep : Char) : List Char → List Char × Option (List Char)
  | [] => ([], none)
  | c :: rest =>
    if c = sep then ([], some rest)
    else
      let (before, after) := splitOnceChar sep rest
      (c :: before, after)

/-- JSON values as returned by Python's `json.loads` (objects kept as
association lists in parse order; numbers represented exactly in `ℚ`). -/
inductive Json where
  | null : Json
  | bool : Bool → Json
  | num : ℚ → Json
  | str : String → Json
  | arr : List Json → Json
  | obj : List (String × Json) → Json

def Json.isObj : Json → Bool
  | .obj _ => true
  | _ => false

def Json.isEmptyObj : Json → Bool
  | .obj [] => true
  | _ => false

/-- JSON whitespace accepted by Python's `json` module. -/
def isJsonWs (c : Char) : Bool := c = ' ' || c = '\t' || c = '\n' || c = '\r'

def jsonSkipWs (s : List Char) : List Char := s.dropWhile isJsonWs

def isHexDigit (c : Char) : Bool :=
  c.isDigit || ('a' ≤ c && c ≤ 'f') || ('A' ≤ c && c ≤ 'F')

def hexVal (c : Char) : Nat :=
  if c.isDigit then c.toNat - '0'.toNat
  else if 'a' ≤ c && c ≤ 'f' then c.toNat - 'a'.toNat + 10
  else if 'A' ≤ c && c ≤ 'F' then c.toNat - 'A'.toNat + 10
  else 0

/-- JSON string body after the opening quote; strict mode (raw control
characters below 0x20 are rejected), standard escapes only. -/
def parseStrBody : List Char → List Char → Option (String × List Char)
  | acc, '"' :: rest => some (String.mk acc.reverse, rest)
  | acc, '\\' :: e :: rest =>
    match e with
    | '"' => parseStrBody ('"' :: acc) rest
    | '\\' => parseStrBody ('\\' :: acc) rest
    | '/' => parseStrBody ('/' :: acc) rest
    | 'b' => parseStrBody ('\x08' :: acc) rest
    | 'f' => parseStrBody ('\x0c' :: acc) rest
    | 'n' => parseStrBody ('\n' :: acc) rest
    | 'r' => parseStrBody ('\r' :: acc) rest
    | 't' => parseStrBody ('\t' :: acc) rest
    | 'u' =>
      match rest with
      | h1 :: h2 :: h3 :: h4 :: rest2 =>
        if isHexDigit h1 && isHexDigit h2 && isHexDigit h3 && isHexDigit h4 then
          let code := ((hexVal h1 * 16 + hexVal h2) * 16 + hexVal h3) * 16 + hexVal h4
          parseStrBody (Char.ofNat code :: acc) rest2
        else none
      | _ => none
    | _ => none
  | acc, c :: rest =>
    if c.toNat < 32 then none else parseStrBody (c :: acc) rest
  | _, [] => none

def digitsToNat (ds : List Char) : Nat :=
  ds.foldl (fun n c => n * 10 + (c.toNat - '0'.toNat)) 0

/-- JSON number grammar `-?(0|[1-9][0-9]*)(\.[0-9]+)?([eE][+-]?[0-9]+)?`,
evaluated exactly in `ℚ`. -/
def parseNum (s : List Char) : Option (Json × List Char) :=
  let (neg, s1) :=
    match s with
    | '-' :: r => (true, r)
    | _ => (false, s)
  let intOpt : Option (List Char × List Char) :=
    match s1 with
    | '0' :: r => some (['0'], r)
    | c :: _ =>
      if c.isDigit && c ≠ '0' then
        some (s1.takeWhile Char.isDigit, s1.dropWhile Char.isDigit)
      else none
    | [] => none
  match intOpt with
  | none => none
  | some (ids, s2) =>
    let (fds, s3) :=
      match s2 with
      | '.' :: r =>
        let ds := r.takeWhile Char.isDigit
        if ds.isEmpty then ([], s2) else (ds, r.dropWhile Char.isDigit)
      | _ => ([], s2)
    let (expOk, eneg, eds, s4) :=
      match s3 with
      | e :: r =>
        if e = 'e' || e = 'E' then
          let (en, r2) :=
            match r with
            | '+' :: r2 => (false, r2)
            | '-' :: r2 => (true, r2)
            | _ => (false, r)
          let ds := r2.takeWhile Char.isDigit
          if ds.isEmpty then (false, false, ([] : List Char), s3)
          else (true, en, ds, r2.dropWhile Char.isDigit)
        else (false, false, [], s3)
      | [] => (false, false, [], s3)
    let mag : ℚ :=
      (digitsToNat ids : ℚ) +
        (if fds.isEmpty then 0 else (digitsToNat fds : ℚ) / (10 : ℚ) ^ fds.length)
    let mag : ℚ :=
      if expOk then
        let e : ℤ := if eneg then -(digitsToNat eds : ℤ) else (digitsToNat eds : ℤ)
        mag * (10 : ℚ) ^ e
      else mag
    some (Json.num (if neg then -mag else mag), s4)

mutual

/-- Recursive-descent JSON value grammar (Python `json.loads` core), with
fuel bounding recursion depth. -/
def parseVal : Nat → List Char → Option (Json × List Char)
  | 0, _ => none
  | fuel + 1, s =>
    match s with
    | '{' :: rest =>
      let r := jsonSkipWs rest
      (match r with
       | '}' :: after => some (Json.obj [], after)
       | _ =>
         match parseMembers fuel r with
         | some (kvs, after) => some (Json.obj kvs, after)
         | none => none)
    | '[' :: rest =>
      let r := jsonSkipWs rest
      (match r with
       | ']' :: after => some (Json.arr [], after)
       | _ =>
         match parseElems fuel r with
         | some (xs, after) => some (Json.arr xs, after)
         | none => none)
    | '"' :: rest =>
      (match parseStrBody [] rest with
       | some (st, after) => some (Json.str st, after)
       | none => none)
    | 't' :: 'r' :: 'u' :: 'e' :: after => some (Json.bool true, after)
    | 'f' :: 'a' :: 'l' :: 's' :: 'e' :: after => some (Json.bool false, after)
    | 'n' :: 'u' :: 'l' :: 'l' :: after => some (Json.null, after)
    | _ => parseNum s

/-- Object members `string : value (, string : value)* }` (input starts at
the first key, whitespace already skipped). -/
def parseMembers : Nat → List Char → Option (List (String × Json) × List Char)
  | 0, _ => none
  | fuel + 1, s =>
    match s with
    | '"' :: rest =>
      (match parseStrBody [] rest with
       | some (key, s1) =>
         (match jsonSkipWs s1 with
          | ':' :: s3 =>
            (match parseVal fuel (jsonSkipWs s3) with
             | some (v, s4) =>
               (match jsonSkipWs s4 with
                | ',' :: s6 =>
                  (match parseMembers fuel (jsonSkipWs s6) with
                   | some (kvs, after) => some ((key, v) :: kvs, after)
                   | none => none)
                | '}' :: after => some ([(key, v)], after)
                | _ => none)
             | none => none)
          | _ => none)
       | none => none)
    | _ => none

/-- Array elements `value (, value)* ]`. -/
def parseElems : Nat → List Char → Option (List Json × List Char)
  | 0, _ => none
  | fuel + 1, s =>
    match parseVal fuel s with
    | some (v, s1) =>
      (match jsonSkipWs s1 with
       | ',' :: s2 =>
         (match parseElems fuel (jsonSkipWs s2) with
          | some (xs, after) => some (v :: xs, after)
          | none => none)
       | ']' :: after => some ([v], after)
       | _ => none)
    | none => none

end

/-- Python `json.loads`: a single value surrounded by whitespace; anything
left over is an "Extra data" error (modelled as `none`). -/
def jsonLoads (s : List Char) : Option Json :=
  match parseVal (s.length + 1) (jsonSkipWs s) with
  | some (v, rest) => if jsonSkipWs rest = [] then some v else none
  | none => none

/-! ## content_analyzer.py: `clean_json_response` and its helpers -/

/-- `extract_json_candidate` (content_analyzer.py lines 145-159): prefer a
code-fenced block containing braces, then slice from the first `{` to the
last `}`. -/
def extractJsonCandidate (text : List Char) : Option (List Char) :=
  let text :=
    if hasSub ['`', '`', '`'] text then
      match (splitSub ['`', '`', '`'] text).find?
          (fun b => hasChar '{' b && hasChar '}' b) with
      | some b => b
      | none => text
    else text
  match findCharIdx '{' text, rfindCharIdx '}' text with
  | some s, some e => if e > s then some ((text.drop s).take (e - s + 1)) else none
  | _, _ => none

/-- Stage: drop control characters below 0x20 except `\n`, `\r`, `\t`. -/
def dropCtlChars (s : List Char) : List Char :=
  s.filter (fun c => 32 ≤ c.toNat || c = '\n' || c = '\r' || c = '\t')

/-- Stage: `re.sub(r'\s+', ' ', s)` — collapse whitespace runs to one space. -/
def collapseWsGo : Nat → List Char → List Char
  | 0, s => s
  | _ + 1, [] => []
  | fuel + 1, c :: rest =>
    if isPyWs c then ' ' :: collapseWsGo fuel (rest.dropWhile isPyWs)
    else c :: collapseWsGo fuel rest

def collapseWs (s : List Char) : List Char := collapseWsGo s.length s

def isIdentStart (c : Char) : Bool := c.isAlpha || c = '_'

def isIdentChar (c : Char) : Bool := c.isAlphanum || c = '_'

/-- Match `\s*([a-zA-Z_][a-zA-Z0-9_]*)\s*:` after a `{` or `,`; returns the
identifier and the remainder after the colon. -/
def tryKeyMatch (s : List Char) : Option (List Char × List Char) :=
  let s1 := s.dropWhile isPyWs
  match s1 with
  | i :: _ =>
    if isIdentStart i then
      let ident := s1.takeWhile isIdentChar
      let s2 := (s1.dropWhile isIdentChar).dropWhile isPyWs
      match s2 with
      | ':' :: after => some (ident, after)
      | _ => none
    else none
  | [] => none

/-- Stage: `re.sub(r'([{,])\s*([a-zA-Z_][a-zA-Z0-9_]*)\s*:', r'\1"\2":', s)`
— quote unquoted object keys. -/
def quoteKeysGo : Nat → List Char → List Char
  | 0, s => s
  | _ + 1, [] => []
  | fuel + 1, c :: rest =>
    if c = '{' || c = ',' then
      match tryKeyMatch rest with
      | some (ident, after) =>
        c :: '"' :: (ident ++ '"' :: ':' :: quoteKeysGo fuel after)
      | none => c :: quoteKeysGo fuel rest
    else c :: quoteKeysGo fuel rest

def quoteKeys (s : List Char) : List Char := quoteKeysGo s.length s

/-- Stage: `s.replace("'", '"')`. -/
def singleToDoubleQuotes (s : List Char) : List Char :=
  s.map (fun c => if c = '\'' then '"' else c)

/-- Stage (content analyzer, line 175): exact-case literal replacement
`.replace('None','null').replace('True','true').replace('False','false')`. -/
def contentNormalizeLiterals (s : List Char) : List Char :=
  replaceSub ['F', 'a', 'l', 's', 'e'] ['f', 'a', 'l', 's', 'e']
    (replaceSub ['T', 'r', 'u', 'e'] ['t', 'r', 'u', 'e']
      (replaceSub ['N', 'o', 'n', 'e'] ['n', 'u', 'l', 'l'] s))

/-- Stage: `re.sub(r',\s*([}\]])', r'\1', s)` — drop trailing commas (and
the intervening whitespace, which is outside the capture group). -/
def dropTrailingCommasGo : Nat → List Char → List Char
  | 0, s => s
  | _ + 1, [] => []
  | fuel + 1, c :: rest =>
    if c = ',' then
      match rest.dropWhile isPyWs with
      | b :: after =>
        if b = '}' || b = ']' then b :: dropTrailingCommasGo fuel after
        else c :: dropTrailingCommasGo fuel rest
      | [] => c :: dropTrailingCommasGo fuel rest
    else c :: dropTrailingCommasGo fuel rest

def dropTrailingCommas (s : List Char) : List Char := dropTrailingCommasGo s.length s

/-- Stage: `re.sub(r'(?<!\\)\\n', ' ', s)` — replace a literal
backslash-n (not preceded by a backslash) with a space; the `prev`
argument carries the character before the scan position. -/
def fixEscapedNGo : Nat → Option Char → List Char → List Char
  | 0, _, s => s
  | _ + 1, _, [] => []
  | fuel + 1, prev, c :: rest =>
    match rest with
    | 'n' :: rest2 =>
      if c = '\\' && prev ≠ some '\\' then ' ' :: fixEscapedNGo fuel (some 'n') rest2
      else c :: fixEscapedNGo fuel (some c) rest
    | _ => c :: fixEscapedNGo fuel (some c) rest

def fixEscapedN (s : List Char) : List Char := fixEscapedNGo s.length none s

/-- Stage: `re.sub(r'[\n\r]+', ' ', s)`. -/
def collapseNewlinesGo : Nat → List Char → List Char
  | 0, s => s
  | _ + 1, [] => []
  | fuel + 1, c :: rest =>
    if c = '\n' || c = '\r' then
      ' ' :: collapseNewlinesGo fuel (rest.dropWhile (fun d => d = '\n' || d = '\r'))
    else c :: collapseNewlinesGo fuel rest

def collapseNewlines (s : List Char) : List Char := collapseNewlinesGo s.length s

/-- Stage: `re.sub(A \s* B, repl, s)` for a fixed pair of bracket characters,
used for the four "missing comma" fixes.  `repl` is emitted verbatim; note
that the Python replacement templates `'},\['` and `'],\['` keep their
backslash, which the model reproduces. -/
def insertBetweenGo (a b : Char) (repl : List Char) : Nat → List Char → List Char
  | 0, s => s
  | _ + 1, [] => []
  | fuel + 1, c :: rest =>
    if c = a then
      match rest.dropWhile isPyWs with
      | d :: after =>
        if d = b then repl ++ insertBetweenGo a b repl fuel after
        else c :: insertBetweenGo a b repl fuel rest
      | [] => c :: insertBetweenGo a b repl fuel rest
    else c :: insertBetweenGo a b repl fuel rest

def insertBetween (a b : Char) (repl s : List Char) : List Char :=
  insertBetweenGo a b repl s.length s

def validEscapeNext : List Char → Bool
  | d :: rest =>
    d = '"' || d = '\\' || d = '/' || d = 'b' || d = 'f' || d = 'n' || d = 'r' ||
      d = 't' ||
      (d = 'u' &&
        match rest with
        | h1 :: h2 :: h3 :: h4 :: _ =>
          isHexDigit h1 && isHexDigit h2 && isHexDigit h3 && isHexDigit h4
        | _ => false)
  | [] => false

/-- Stage: `re.sub(r'\\(?!["\\/bfnrt]|u[0-9a-fA-F]{4})', '', s)` — remove a
backslash not starting a valid JSON escape. -/
def stripBadEscapesGo : Nat → List Char → List Char
  | 0, s => s
  | _ + 1, [] => []
  | fuel + 1, c :: rest =>
    if c = '\\' then
      if validEscapeNext rest then c :: stripBadEscapesGo fuel rest
      else stripBadEscapesGo fuel rest
    else c :: stripBadEscapesGo fuel rest

def stripBadEscapes (s : List Char) : List Char := stripBadEscapesGo s.length s

/-- `clean_json_string` (content_analyzer.py lines 167-193), stage by stage
in source order. -/
def cleanJsonString (s : List Char) : List Char :=
  let s := dropCtlChars s
  let s := collapseWs s
  let s := quoteKeys s
  let s := singleToDoubleQuotes s
  let s := contentNormalizeLiterals s
  let s := dropTrailingCommas s
  let s := fixEscapedN s
  let s := collapseNewlines s
  let s := insertBetween '}' '{' ['}', ',', '{'] s
  let s := insertBetween ']' '{' [']', ',', '{'] s
  let s := insertBetween '}' '[' ['}', ',', '\\', '['] s
  let s := insertBetween ']' '[' [']', ',', '\\', '['] s
  let s := stripBadEscapes s
  stripWs s

/-- `clean_json_response` (content_analyzer.py lines 137-218): extract a
candidate, clean it, strict-parse once; only a non-empty parsed object is
returned, every failure path yields `none`. -/
def clean_json_response (response : String) : Option Json :=
  let rs := response.toList
  if rs.isEmpty then none
  else
    match extractJsonCandidate rs with
    | none => none
    | some cand =>
      match jsonLoads (cleanJsonString cand) with
      | some (Json.obj kvs) => if kvs.isEmpty then none else some (Json.obj kvs)
      | some _ => none
      | none => none

/-! ## channel_analyzer.py: `_clean_json_response` -/

/-- `re.search(r'\{[^}]+\}', s)`: leftmost span from a `{` through at least
one non-`}` character to the next `}`. -/
def findBraceSpanGo : Nat → List Char → Option (List Char)
  | 0, _ => none
  | _ + 1, [] => none
  | fuel + 1, c :: rest =>
    if c = '{' then
      let inner := rest.takeWhile (· ≠ '}')
      if !inner.isEmpty && leadsWith ['}'] (rest.dropWhile (· ≠ '}')) then
        some ('{' :: inner ++ ['}'])
      else findBraceSpanGo fuel rest
    else findBraceSpanGo fuel rest

def findBraceSpan (s : List Char) : Option (List Char) := findBraceSpanGo s.length s

/-- Stage: `re.sub(r'None|null|undefined', 'null', s, flags=re.IGNORECASE)`
— alternatives tried in order at each position. -/
def channelNormalizeNullsGo : Nat → List Char → List Char
  | 0, s => s
  | _ + 1, [] => []
  | fuel + 1, c :: rest =>
    if ciLeadsWith ['n', 'o', 'n', 'e'] (c :: rest) then
      'n' :: 'u' :: 'l' :: 'l' :: channelNormalizeNullsGo fuel (rest.drop 3)
    else if ciLeadsWith ['n', 'u', 'l', 'l'] (c :: rest) then
      'n' :: 'u' :: 'l' :: 'l' :: channelNormalizeNullsGo fuel (rest.drop 3)
    else if ciLeadsWith ['u', 'n', 'd', 'e', 'f', 'i', 'n', 'e', 'd'] (c :: rest) then
      'n' :: 'u' :: 'l' :: 'l' :: channelNormalizeNullsGo fuel (rest.drop 8)
    else c :: channelNormalizeNullsGo fuel rest

def channelNormalizeNulls (s : List Char) : List Char :=
  channelNormalizeNullsGo s.length s

/-- Stage: `re.sub(r'True|true|False|false', lambda m: m.group(0).lower(), s)`
— case-sensitive alternatives, lowercased on match. -/
def channelNormalizeBoolsGo : Nat → List Char → List Char
  | 0, s => s
  | _ + 1, [] => []
  | fuel + 1, c :: rest =>
    if leadsWith ['T', 'r', 'u', 'e'] (c :: rest) ||
        leadsWith ['t', 'r', 'u', 'e'] (c :: rest) then
      't' :: 'r' :: 'u' :: 'e' :: channelNormalizeBoolsGo fuel (rest.drop 3)
    else if leadsWith ['F', 'a', 'l', 's', 'e'] (c :: rest) ||
        leadsWith ['f', 'a', 'l', 's', 'e'] (c :: rest) then
      'f' :: 'a' :: 'l' :: 's' :: 'e' :: channelNormalizeBoolsGo fuel (rest.drop 4)
    else c :: channelNormalizeBoolsGo fuel rest

def channelNormalizeBools (s : List Char) : List Char :=
  channelNormalizeBoolsGo s.length s

/-- Stage: `re.sub(r',(\s*[}\]])', r'\1', s)` — drop the comma but keep the
whitespace (it is inside the capture group, unlike the content-analyzer
variant). -/
def channelDropTrailingCommasGo : Nat → List Char → List Char
  | 0, s => s
  | _ + 1, [] => []
  | fuel + 1, c :: rest =>
    if c = ',' then
      let ws := rest.takeWhile isPyWs
      match rest.dropWhile isPyWs with
      | b :: after =>
        if b = '}' || b = ']' then
          ws ++ b :: channelDropTrailingCommasGo fuel after
        else c :: channelDropTrailingCommasGo fuel rest
      | [] => c :: channelDropTrailingCommasGo fuel rest
    else c :: channelDropTrailingCommasGo fuel rest

def channelDropTrailingCommas (s : List Char) : List Char :=
  channelDropTrailingCommasGo s.length s

def isWordChar (c : Char) : Bool := c.isAlphanum || c = '_'

/-- Aggressive-pass stage: `re.sub(r'[^\[\]{}",:\-\d\w\s]', '', s)` — keep
only allow-listed characters. -/
def allowListFilter (s : List Char) : List Char :=
  s.filter (fun c =>
    c = '[' || c = ']' || c = '{' || c = '}' || c = '"' || c = ',' || c = ':' ||
      c = '-' || c.isDigit || isWordChar c || isPyWs c)

/-- Aggressive-pass stage: `re.sub(r'([{\[]),\s*([}\]])', r'\1\2', s)` —
collapse an empty `{, }` / `[, ]` artifact. -/
def collapseEmptyPairsGo : Nat → List Char → List Char
  | 0, s => s
  | _ + 1, [] => []
  | fuel + 1, c :: rest =>
    if c = '{' || c = '[' then
      match rest with
      | ',' :: r2 =>
        (match r2.dropWhile isPyWs with
         | b :: after =>
           if b = '}' || b = ']' then c :: b :: collapseEmptyPairsGo fuel after
           else c :: collapseEmptyPairsGo fuel rest
         | [] => c :: collapseEmptyPairsGo fuel rest)
      | _ => c :: collapseEmptyPairsGo fuel rest
    else c :: collapseEmptyPairsGo fuel rest

def collapseEmptyPairs (s : List Char) : List Char := collapseEmptyPairsGo s.length s

/-- Aggressive-pass stage: `re.sub(r':\s*([]},])', r':null\1', s)` — fill a
dangling colon with a null placeholder. -/
def fillDanglingColonsGo : Nat → List Char → List Char
  | 0, s => s
  | _ + 1, [] => []
  | fuel + 1, c :: rest =>
    if c = ':' then
      match rest.dropWhile isPyWs with
      | b :: after =>
        if b = ']' || b = '}' || b = ',' then
          ':' :: 'n' :: 'u' :: 'l' :: 'l' :: b :: fillDanglingColonsGo fuel after
        else c :: fillDanglingColonsGo fuel rest
      | [] => c :: fillDanglingColonsGo fuel rest
    else c :: fillDanglingColonsGo fuel rest

def fillDanglingColons (s : List Char) : List Char := fillDanglingColonsGo s.length s

/-- The fallback record built from the playlist title and video count
(channel_analyzer.py lines 48-52). -/
def channelFallback (title : String) (videoCount : Nat) : Json :=
  Json.obj
    [("summary",
       Json.str ("A collection of " ++ toString videoCount ++ " videos about " ++ title)),
     ("target_audience", Json.str "General audience"),
     ("key_topics", Json.arr [Json.str title])]

/-- Cleaning applied before the first (strict) parse attempt
(channel_analyzer.py lines 13-33). -/
def channelStage1 (response : List Char) : List Char :=
  let js :=
    if hasSub ['`', '`', '`'] response then
      match (splitSub ['`', '`', '`'] response).find?
          (fun b => hasChar '{' b && hasChar '}' b) with
      | some b => stripWs b
      | none => response
    else response
  let js :=
    match findBraceSpan js with
    | some m => m
    | none => js
  let js := replaceSub ['\n'] [' '] js
  let js := replaceSub ['\\', 'n'] [' '] js
  let js := quoteKeys js
  let js := singleToDoubleQuotes js
  let js := channelNormalizeNulls js
  let js := channelNormalizeBools js
  channelDropTrailingCommas js

/-- The aggressive second repair pass (channel_analyzer.py lines 39-42). -/
def channelAggressivePass (s : List Char) : List Char :=
  let s := allowListFilter s
  let s := dropTrailingCommas s
  let s := collapseEmptyPairs s
  fillDanglingColons s

/-- `_clean_json_response` (channel_analyzer.py lines 10-60): clean, strict
parse, on failure repair aggressively and parse once more, else fall back to
a synthesized record.  A successfully parsed value is returned as-is (no
dict or non-emptiness check). -/
def channel_clean_json_response (response title : String) (videoCount : Nat) : Json :=
  let s1 := channelStage1 response.toList
  match jsonLoads s1 with
  | some v => v
  | none =>
    match jsonLoads (channelAggressivePass s1) with
    | some v => v
    | none => channelFallback title videoCount

/-! ## content_analyzer.py: `_safe_api_call` (retry wrapper) -/

/-- The sentinel record returned when every attempt failed
(content_analyzer.py lines 124-135), carrying the last error string. -/
def fallbackRecord (lastError : String) : Json :=
  Json.obj
    [("subject", Json.str "Analysis Error"),
     ("subtopic", Json.str "API Processing Failed"),
     ("difficulty_level", Json.str "Unavailable"),
     ("target_audience", Json.str "Not available"),
     ("prerequisites", Json.arr []),
     ("concepts",
       Json.arr [Json.str ("Error: " ++ lastError), Json.str "Please try again later"]),
     ("summary", Json.str ("Analysis failed: " ++ lastError)),
     ("key_points", Json.arr [Json.str "Unable to process content"]),
     ("chapter_breakdown", Json.arr []),
     ("learning_outcomes", Json.arr [])]

/-- Result of the retry wrapper: the returned record (none only when
`max_retries = 0`, where the Python loop body never runs and the function
falls off the end), the sleep durations performed, and the number of calls
made to the external capability. -/
structure ApiCallResult where
  result : Option Json
  sleeps : List Nat
  calls : Nat

/-- One loop iteration's body after the sleep (content_analyzer.py lines
99-117): call the capability, reject an empty response, parse, reject an
unparseable response.  `predict` models `self.api_client.gemini_model.predict`,
indexed by the attempt number; `Except.error` models a raised exception. -/
def attemptOnce (predict : Nat → Except String String) (attempt : Nat) :
    Except String Json :=
  match predict attempt with
  | Except.error e => Except.error e
  | Except.ok response =>
    if response = "" then Except.error "Empty response from API"
    else
      match clean_json_response response with
      | some result => Except.ok result
      | none => Except.error "Failed to extract valid JSON structure"

/-- The retry loop (content_analyzer.py lines 92-135): on each attempt after
the first, sleep `delay` then double it; return the first parsed record; on
the final attempt's failure return the sentinel with the last error. -/
def safeApiCallAux (predict : Nat → Except String String) :
    Nat → Nat → Nat → ApiCallResult
  | 0, _, _ => ⟨none, [], 0⟩
  | remaining + 1, attempt, delay =>
    let sleepsNow := if attempt > 0 then [delay] else []
    let delayNext := if attempt > 0 then delay * 2 else delay
    match attemptOnce predict attempt with
    | Except.ok result => ⟨some result, sleepsNow, 1⟩
    | Except.error e =>
      if remaining = 0 then ⟨some (fallbackRecord e), sleepsNow, 1⟩
      else
        let rec_ := safeApiCallAux predict remaining (attempt + 1) delayNext
        ⟨rec_.result, sleepsNow ++ rec_.sleeps, rec_.calls + 1⟩

/-- `_safe_api_call(prompt, max_retries=3, initial_delay=3)`; the prompt is
absorbed into `predict`. -/
def safe_api_call (predict : Nat → Except String String)
    (maxRetries initialDelay : Nat) : ApiCallResult :=
  safeApiCallAux predict maxRetries 0 initialDelay

/-! ## content_analyzer.py: sentiment batch pipeline -/

structure Comment where
  text : String
  likes : Nat
deriving DecidableEq

/-- One entry of the model's `results` list: the raw fields accessed with
`result.get(..., default)` are optional. -/
structure RawResult where
  sentiment : Option String
  confidence : Option String
  keyPhrases : List String
deriving DecidableEq

/-- One entry of the list built by `analyze_comment_batch`. -/
structure Verdict where
  text : String
  sentiment : String
  confidence : String
  keyPhrases : List String
  likes : Nat
deriving DecidableEq

/-- `analyze_comment_batch` (content_analyzer.py lines 426-448): `api`
models `_safe_api_call` followed by the `'results' in analysis` check
(`none` covers a falsy analysis or a missing key, both returning `[]`);
comments and results are aligned positionally by `zip`, the shorter side
bounding the output. -/
def analyze_comment_batch (api : List Comment → Option (List RawResult))
    (comments : List Comment) : List Verdict :=
  match api comments with
  | none => []
  | some results =>
    (List.zip comments results).map fun cr =>
      { text := cr.1.text
        sentiment := cr.2.sentiment.getD "negative"
        confidence := cr.2.confidence.getD "low"
        keyPhrases := cr.2.keyPhrases
        likes := cr.1.likes }

def BATCH_SIZE : Nat := 20

/-- Stable descending sort by likes: Python
`sorted(comments, key=lambda x: x['likes'], reverse=True)`. -/
def insertByLikesDesc (c : Comment) : List Comment → List Comment
  | [] => [c]
  | d :: rest =>
    if d.likes ≥ c.likes then d :: insertByLikesDesc c rest else c :: d :: rest

def pySortedByLikesDesc : List Comment → List Comment
  | [] => []
  | c :: rest => insertByLikesDesc c (pySortedByLikesDesc rest)

/-- `range(0, len(l), B)` slicing into contiguous batches (`B > 0`);
structural recursion on a fuel bounded by the list length. -/
def chunksOfGo (B : Nat) : Nat → List α → List (List α)
  | 0, _ => []
  | _ + 1, [] => []
  | fuel + 1, x :: xs => (x :: xs).take B :: chunksOfGo B fuel ((x :: xs).drop B)

def chunksOf (B : Nat) (l : List α) : List (List α) :=
  if B = 0 then [] else chunksOfGo B l.length l

/-- The per-verdict counting step of `display_sentiment_analysis`
(content_analyzer.py lines 466-470): a sentiment outside
`{positive, negative}` is counted as negative. -/
def countStep (pn : Nat × Nat) (v : Verdict) : Nat × Nat :=
  let sent := if v.sentiment = "positive" || v.sentiment = "negative"
    then v.sentiment else "negative"
  if sent = "positive" then (pn.1 + 1, pn.2) else (pn.1, pn.2 + 1)

/-- `display_sentiment_analysis` (content_analyzer.py lines 450-504), up to
the returned counts: take the 100 most-liked comments, analyze them in
batches of `BATCH_SIZE`, accumulate all verdicts and the normalized counts. -/
def displayStep (api : List Comment → Option (List RawResult))
    (acc : List Verdict × Nat × Nat) (batch : List Comment) :
    List Verdict × Nat × Nat :=
  let batchAnalyses := analyze_comment_batch api batch
  (acc.1 ++ batchAnalyses, batchAnalyses.foldl countStep acc.2)

def display_sentiment_analysis (api : List Comment → Option (List RawResult))
    (comments : List Comment) : List Verdict × Nat × Nat :=
  if comments.isEmpty then ([], 0, 0)
  else
    let top := (pySortedByLikesDesc comments).take 100
    (chunksOf BATCH_SIZE top).foldl (displayStep api) ([], 0, 0)

/-! ## search_analyzer.py -/

/-- Python `str.split(sep)` for a single-character separator (keeps empty
pieces; structural, unlike `String.split`). -/
def splitOnChar (sep : Char) : List Char → List (List Char)
  | [] => [[]]
  | c :: rest =>
    if c = sep then [] :: splitOnChar sep rest
    else
      match splitOnChar sep rest with
      | [] => [[c]]
      | h :: t => (c :: h) :: t

/-- Python `int(s)`: strip whitespace, optional sign, then digits. -/
def parseIntPy (s : List Char) : Option Int :=
  let t := stripWs s
  let (neg, t2) :=
    match t with
    | '-' :: r => (true, r)
    | '+' :: r => (false, r)
    | _ => (false, t)
  if !t2.isEmpty && t2.all Char.isDigit then
    some (if neg then -(digitsToNat t2 : Int) else (digitsToNat t2 : Int))
  else none

/-- `_timestamp_to_seconds` (search_analyzer.py lines 103-112): `MM:SS` to
`minutes*60+seconds`; any failure (wrong arity, non-integer parts) yields 0
via the `except` clause. -/
def timestamp_to_seconds (ts : String) : Int :=
  match splitOnChar ':' ts.toList with
  | [m, s] =>
    match parseIntPy m, parseIntPy s with
    | some mi, some si => mi * 60 + si
    | _, _ => 0
  | _ => 0

/-- A transcript segment.  `tsLabel = none` models the initial Python value
`current_timestamp = 0` (an `int`), on which `_timestamp_to_seconds` raises
and its `except` returns 0. -/
structure Seg where
  tsLabel : Option String
  text : String
  seconds : Int
deriving DecidableEq

def tsSecondsOfLabel : Option String → Int
  | none => 0
  | some s => timestamp_to_seconds s

def mkSeg (curTs : Option String) (texts : List String) : Seg :=
  { tsLabel := curTs
    text := String.intercalate " " texts
    seconds := tsSecondsOfLabel curTs }

/-- The line scanner of `_find_relevant_segments` (search_analyzer.py lines
39-75): a line containing `[` and `]` starts a new segment (flushing the
open one); other non-blank lines are appended, joined by single spaces. -/
def segLoop : List (List Char) → Option String → List String → List Seg
  | [], curTs, curText =>
    if curText.isEmpty then [] else [mkSeg curTs curText]
  | lc :: rest, curTs, curText =>
    if (stripWs lc).isEmpty then segLoop rest curTs curText
    else if hasChar '[' lc && hasChar ']' lc then
      let flushed := if curText.isEmpty then [] else [mkSeg curTs curText]
      let parts := splitOnceChar ']' lc
      let timestamp := String.mk (stripCharBE '[' parts.1)
      let text :=
        match parts.2 with
        | some a => String.mk (stripWs a)
        | none => ""
      flushed ++ segLoop rest (some timestamp) (if text = "" then [] else [text])
    else segLoop rest curTs (curText ++ [String.mk (stripWs lc)])

def segmentTranscript (transcript : String) : List Seg :=
  segLoop (splitOnChar '\n' transcript.toList) none []

def dotQ (xs ys : List ℚ) : ℚ := (List.zipWith (· * ·) xs ys).sum

def normSq (xs : List ℚ) : ℚ := dotQ xs xs

/-- `np.dot(a,b) / (np.linalg.norm(a) * np.linalg.norm(b))` as written (with
no guard) at search_analyzer.py lines 83-85 and 148-150.  In NumPy a zero
denominator makes the quotient NaN (0/0, since either vector is then zero):
modelled as `none`. -/
noncomputable def cosine_similarity (xs ys : List ℚ) : Option ℝ :=
  let denom : ℝ := Real.sqrt ((normSq xs : ℚ) : ℝ) * Real.sqrt ((normSq ys : ℚ) : ℝ)
  if denom = 0 then none else some (((dotQ xs ys : ℚ) : ℝ) / denom)

/-- Computable stand-in for the same expression inside the ranking
pipeline, with the float square root abstracted as a parameter `sqrtQ`
(the zero-division behaviour is settled separately via
`cosine_similarity`). -/
def cosQ (sqrtQ : ℚ → ℚ) (xs ys : List ℚ) : ℚ :=
  dotQ xs ys / (sqrtQ (normSq xs) * sqrtQ (normSq ys))

/-- Stable descending insertion by a `ℚ` key: Python
`list.sort(key=..., reverse=True)`. -/
def insertDescBy (key : α → ℚ) (x : α) : List α → List α
  | [] => [x]
  | y :: rest => if key y ≥ key x then y :: insertDescBy key x rest else x :: y :: rest

def sortDescBy (key : α → ℚ) : List α → List α
  | [] => []
  | x :: rest => insertDescBy key x (sortDescBy key rest)

structure RelSeg where
  tsLabel : Option String
  text : String
  similarity : ℚ
  seconds : Int

/-- `_find_relevant_segments` (search_analyzer.py lines 28-101): segment the
transcript, keep segments with query similarity above 0.5, sort by
similarity descending, return the top 3.  `encode` models
`self.model.encode`. -/
def find_relevant_segments (encode : String → List ℚ) (sqrtQ : ℚ → ℚ)
    (transcript query : String) : List RelSeg :=
  if transcript = "" || query = "" then []
  else
    let qe := encode query
    let rel := (segmentTranscript transcript).filterMap fun s =>
      let sim := cosQ sqrtQ qe (encode s.text)
      if sim > 0.5 then
        some { tsLabel := s.tsLabel, text := s.text, similarity := sim,
               seconds := s.seconds }
      else none
    (sortDescBy (fun r => r.similarity) rel).take 3

def engagement_term (views likes : ℚ) : ℚ :=
  if 0 < views then likes / views else 0

/-- `_calculate_engagement_score` (search_analyzer.py lines 114-132) with
the float `np.log1p` abstracted as `log1p` and the days-since-publish value
already extracted.  The outer guard models the `except` clause: a zero
denominator in the recency boost (ZeroDivisionError) returns 0. -/
def calculate_engagement_score (log1p : ℤ → ℚ) (views likes : ℚ) (days : ℤ) : ℚ :=
  if 1 + log1p days = 0 then 0
  else 0.4 * engagement_term views likes + 0.6 * (2 / (1 + log1p days))

/-- The spec's formula for the same quantity:
`0.4 * (likeCount/max(viewCount,1)) + 0.6 * recencyBoost`. -/
def specEngagementScore (log1p : ℤ → ℚ) (views likes : ℚ) (days : ℤ) : ℚ :=
  0.4 * (likes / max views 1) + 0.6 * (2 / (1 + log1p days))

structure Video where
  title : String
  description : String
  tags : List String
  views : ℚ
  likes : ℚ
  publishedAt : String
  transcript : String

/-- `_get_video_embedding` content string:
`f"{video['title']} {video['description']} {' '.join(video['tags'])}"`. -/
def videoContent (v : Video) : String :=
  v.title ++ " " ++ v.description ++ " " ++ String.intercalate " " v.tags

structure Ranked where
  video : Video
  similarity : ℚ
  engagementScore : ℚ
  finalScore : ℚ
  publishedDate : String
  relevantSegments : List RelSeg

/-- Score every video, failing (as `none`) when `strptime` on the publish
date raises, which aborts the whole ranking via the outer `except`. -/
def rankAll (f : Video → Option Ranked) : List Video → Option (List Ranked)
  | [] => some []
  | v :: rest =>
    match f v, rankAll f rest with
    | some r, some rs => some (r :: rs)
    | _, _ => none

set_option linter.unusedVariables false in
/-- `rank_videos(query, videos, top_k=None)` (search_analyzer.py lines
134-176).  `daysSince` models `strptime` + "days since now" (`none` = parse
failure, which raises at line 156 and empties the result); `fmtDate` models
`strftime("%Y-%m-%d")`.  The `top_k` parameter is accepted but never read;
the result is always the 3 highest-scoring videos. -/
def rank_videos (encode : String → List ℚ) (sqrtQ : ℚ → ℚ) (log1p : ℤ → ℚ)
    (daysSince : String → Option ℤ) (fmtDate : String → String)
    (query : String) (videos : List Video) (top_k : Option Nat) : List Ranked :=
  if videos.isEmpty then []
  else
    let qe := encode query
    let score := fun (v : Video) =>
      match daysSince v.publishedAt with
      | none => none
      | some d =>
        let sim := cosQ sqrtQ qe (encode (videoContent v))
        let eng := calculate_engagement_score log1p v.views v.likes d
        some { video := v
               similarity := sim
               engagementScore := eng
               finalScore := 0.5 * sim + 0.5 * eng
               publishedDate := fmtDate v.publishedAt
               relevantSegments := find_relevant_segments encode sqrtQ v.transcript query }
    match rankAll score videos with
    | none => []
    | some rs => (sortDescBy (fun r => r.finalScore) rs).take 3

/-! ## Theorems -/

/-- C9: the segmenter starts a new segment at each bracketed timestamp
line, appends unbracketed non-empty lines to the open segment joined with
single spaces, and converts `MM:SS` to `minutes*60+seconds` with malformed
labels converting to 0; on `"[00:10] hello\nworld\n[01:05] next"` it yields
exactly the two segments `(10, "hello world")` and `(65, "next")` in input
order. -/
theorem transcript_segmentation_spec :
    ((segmentTranscript "[00:10] hello\nworld\n[01:05] next").map
        (fun s => (s.seconds, s.text)) =
      [((10 : Int), "hello world"), ((65 : Int), "next")]) ∧
    timestamp_to_seconds "00:10" = 10 ∧
    timestamp_to_seconds "12:34" = 754 ∧
    timestamp_to_seconds "garbage" = 0 ∧
    timestamp_to_seconds "1:2:3" = 0 ∧
    timestamp_to_seconds "ab:cd" = 0 := by
  refine ⟨?_, rfl, rfl, rfl, rfl, rfl⟩
  rfl

/-- C6 counterexample: the content analyzer's literal replacement is
exact-case only (`NONE` is not normalized), and the channel analyzer's
boolean regex has no IGNORECASE flag (`TRUE` is not normalized). -/
theorem literal_normalization_cex :
    String.mk (contentNormalizeLiterals "NONE".toList) = "NONE" ∧
    ("NONE" : String) ≠ "null" ∧
    String.mk (channelNormalizeBools "TRUE".toList) = "TRUE" ∧
    ("TRUE" : String) ≠ "true" :=
  ⟨rfl, by decide, rfl, by decide⟩

/-- C6 amended: the content analyzer replaces only the exact-case tokens
`None`/`True`/`False`; the channel analyzer maps `none`/`null`/`undefined`
to the null literal case-insensitively but lowercases only the exact-case
boolean tokens `True`/`true`/`False`/`false`; other capitalizations such as
`NONE` or `TRUE` are left untouched. -/
theorem literal_normalization_amended :
    String.mk (contentNormalizeLiterals "None".toList) = "null" ∧
    String.mk (contentNormalizeLiterals "True".toList) = "true" ∧
    String.mk (contentNormalizeLiterals "False".toList) = "false" ∧
    String.mk (contentNormalizeLiterals "none".toList) = "none" ∧
    String.mk (contentNormalizeLiterals "NONE".toList) = "NONE" ∧
    String.mk (channelNormalizeNulls "NoNe".toList) = "null" ∧
    String.mk (channelNormalizeNulls "UNDEFINED".toList) = "null" ∧
    String.mk (channelNormalizeNulls "Null".toList) = "null" ∧
    String.mk (channelNormalizeNulls "none".toList) = "null" ∧
    String.mk (channelNormalizeBools "True".toList) = "true" ∧
    String.mk (channelNormalizeBools "false".toList) = "false" ∧
    String.mk (channelNormalizeBools "FaLsE".toList) = "FaLsE" :=
  ⟨rfl, rfl, rfl, rfl, rfl, rfl, rfl, rfl, rfl, rfl, rfl, rfl⟩

/-- C4 counterexample: with `viewCount = 0` and `likeCount = 10` the code's
like/view term is 0 (the `views > 0` guard), not `likeCount` as the claimed
formula `likes/max(views,1)` would give (taking the same recency boost
value 2 on both sides, via `log1p = 0`). -/
theorem engagement_score_cex :
    calculate_engagement_score (fun _ => 0) 0 10 0 = 6 / 5 ∧
    specEngagementScore (fun _ => 0) 0 10 0 = 26 / 5 ∧
    (6 / 5 : ℚ) ≠ 26 / 5 := by
  refine ⟨?_, ?_, by norm_num⟩
  · norm_num [calculate_engagement_score, engagement_term]
  · norm_num [specEngagementScore]

/-- C4 amended: the engagement score is
`0.4 * (likes/views if views > 0 else 0) + 0.6 * recencyBoost` (with the
whole expression falling back to 0 if the recency denominator vanishes);
it agrees with the spec's `0.4 * (likes/max(views,1)) + 0.6 * recencyBoost`
whenever `views ≥ 1`, and for `views = 0` the like/view term is 0, not
`likes`. -/
theorem engagement_score_amended :
    ∀ (log1p : ℤ → ℚ) (views likes : ℚ) (days : ℤ),
      (1 ≤ views →
        calculate_engagement_score log1p views likes days =
          if 1 + log1p days = 0 then 0 else specEngagementScore log1p views likes days) ∧
      (views = 0 →
        calculate_engagement_score log1p views likes days =
          if 1 + log1p days = 0 then 0 else 0.6 * (2 / (1 + log1p days))) := by
  intro log1p views likes days
  constructor
  · intro hv
    by_cases hz : 1 + log1p days = 0
    · simp [calculate_engagement_score, hz]
    · have hv0 : 0 < views := lt_of_lt_of_le one_pos hv
      have hmax : max views 1 = views := max_eq_left hv
      simp [calculate_engagement_score, specEngagementScore, engagement_term, hz, hv0, hmax]
  · intro hv
    subst hv
    by_cases hz : 1 + log1p days = 0
    · simp [calculate_engagement_score, hz]
    · simp [calculate_engagement_score, engagement_term, hz]

/-- C4 witness: concrete instance `views = 2`, `likes = 1`, `log1p = 0`. -/
theorem engagement_score_amended_witness :
    (1 : ℚ) ≤ 2 ∧
    calculate_engagement_score (fun _ => 0) 2 1 0 =
      (if (1 : ℚ) + (fun _ : ℤ => (0 : ℚ)) 0 = 0 then 0
       else specEngagementScore (fun _ => 0) 2 1 0) :=
  ⟨by norm_num, (engagement_score_amended (fun _ => 0) 2 1 0).1 (by norm_num)⟩

theorem normSq_nonneg (xs : List ℚ) : 0 ≤ normSq xs := by
  unfold normSq dotQ
  induction xs with
  | nil => simp
  | cons x rest ih =>
    simp only [List.zipWith_cons_cons, List.sum_cons]
    exact add_nonneg (mul_self_nonneg x) ih

/-- C5 counterexample: the division is not guarded — with the zero vector
`[0]` against `[1]` the denominator is zero and the result is NaN
(modelled `none`), not 0. -/
theorem cosine_similarity_cex :
    cosine_similarity [(0 : ℚ)] [(1 : ℚ)] = none ∧
    cosine_similarity [(0 : ℚ)] [(1 : ℚ)] ≠ some 0 := by
  have h : normSq [(0 : ℚ)] = 0 := by norm_num [normSq, dotQ]
  have hnone : cosine_similarity [(0 : ℚ)] [(1 : ℚ)] = none := by
    simp [cosine_similarity, h]
  exact ⟨hnone, by simp [hnone]⟩

/-- C5 amended: in both ranking paths the similarity expression
`dot/(‖a‖*‖b‖)` is computed with no guard: whenever either vector is zero
(zero squared norm) the denominator is zero and the result is undefined
(NaN, modelled `none`) rather than 0; when both vectors are non-zero the
quotient is defined. -/
theorem cosine_similarity_amended :
    ∀ xs ys : List ℚ,
      ((normSq xs = 0 ∨ normSq ys = 0) → cosine_similarity xs ys = none) ∧
      (normSq xs ≠ 0 → normSq ys ≠ 0 → ∃ r, cosine_similarity xs ys = some r) := by
  intro xs ys
  constructor
  · rintro (h | h) <;> simp [cosine_similarity, h]
  · intro hx hy
    have hx0 : (0 : ℝ) < ((normSq xs : ℚ) : ℝ) := by
      exact_mod_cast lt_of_le_of_ne (normSq_nonneg xs) (Ne.symm hx)
    have hy0 : (0 : ℝ) < ((normSq ys : ℚ) : ℝ) := by
      exact_mod_cast lt_of_le_of_ne (normSq_nonneg ys) (Ne.symm hy)
    have hx1 : (0 : ℝ) < Real.sqrt ((normSq xs : ℚ) : ℝ) := Real.sqrt_pos.mpr hx0
    have hy1 : (0 : ℝ) < Real.sqrt ((normSq ys : ℚ) : ℝ) := Real.sqrt_pos.mpr hy0
    have hd : Real.sqrt ((normSq xs : ℚ) : ℝ) * Real.sqrt ((normSq ys : ℚ) : ℝ) ≠ 0 :=
      ne_of_gt (mul_pos hx1 hy1)
    refine ⟨((dotQ xs ys : ℚ) : ℝ) /
      (Real.sqrt ((normSq xs : ℚ) : ℝ) * Real.sqrt ((normSq ys : ℚ) : ℝ)), ?_⟩
    simp [cosine_similarity, hd]

/-- C5 witness: the zero-vector case at `[0]`, `[1]`. -/
theorem cosine_similarity_amended_witness :
    (normSq [(0 : ℚ)] = 0 ∨ normSq [(1 : ℚ)] = 0) ∧
    cosine_similarity [(0 : ℚ)] [(1 : ℚ)] = none :=
  have h : normSq [(0 : ℚ)] = 0 := by simp [normSq, dotQ]
  ⟨Or.inl h, (cosine_similarity_amended [(0 : ℚ)] [(1 : ℚ)]).1 (Or.inl h)⟩

/-- C10: `rank_videos` gives the same output for every value of its
`top_k` parameter — the parameter is never read — and the result is always
truncated to at most 3 entries. -/
theorem rank_videos_topk_ignored :
    ∀ (encode : String → List ℚ) (sqrtQ : ℚ → ℚ) (log1p : ℤ → ℚ)
      (daysSince : String → Option ℤ) (fmtDate : String → String)
      (query : String) (videos : List Video) (t1 t2 : Option Nat),
      rank_videos encode sqrtQ log1p daysSince fmtDate query videos t1 =
        rank_videos encode sqrtQ log1p daysSince fmtDate query videos t2 ∧
      (rank_videos encode sqrtQ log1p daysSince fmtDate query videos t1).length ≤ 3 := by
  intro encode sqrtQ log1p daysSince fmtDate query videos t1 t2
  refine ⟨rfl, ?_⟩
  unfold rank_videos
  dsimp only
  split
  · simp
  · split
    · simp
    · simp [Nat.le_trans (Nat.le_of_eq (List.length_take _ _)) (Nat.min_le_left _ _)]

/-- C2 counterexample: the channel-analyzer variant of the repair parser
performs no dict or non-emptiness check on a successful parse: on
`"[1, 2]"` it returns a parsed list (not a dict), and on `"\x7b\x7d"` it
returns the empty dict. -/
theorem repair_parser_shape_cex :
    Json.isObj (channel_clean_json_response "[1, 2]" "title" 3) = false ∧
    Json.isEmptyObj (channel_clean_json_response "\x7b\x7d" "title" 3) = true :=
  ⟨rfl, rfl⟩

/-- C2 amended: the content-analyzer parser never raises (it is total) and
returns either a non-empty parsed object or `none` — never an empty or
non-dict value; the channel-analyzer variant, by contrast, returns any
successfully parsed JSON value as-is (possibly an empty dict or a
non-dict). -/
theorem repair_parser_shape :
    ∀ response : String,
      clean_json_response response = none ∨
      ∃ kvs, clean_json_response response = some (Json.obj kvs) ∧ kvs ≠ [] := by
  intro response
  unfold clean_json_response
  dsimp only
  split
  · exact Or.inl rfl
  · split
    · exact Or.inl rfl
    · split
      · split
        · exact Or.inl rfl
        · rename_i kvs hparse hne
          exact Or.inr ⟨kvs, rfl, by simpa using hne⟩
      · exact Or.inl rfl
      · exact Or.inl rfl

/-- C7: when the strict parse of the cleaned candidate fails, the channel
parser applies the aggressive repair pass (allow-list filter, trailing
comma drop, empty-pair collapse, dangling-colon null fill) and parses
exactly once more, falling back to the synthesized record if that also
fails; the input `"\x7b\"a\": !\x7d"` is rejected by the strict parse but
recovered by the second pass as `\x7b"a": null\x7d`. -/
theorem aggressive_repair_retry :
    (∀ (response title : String) (vc : Nat),
      jsonLoads (channelStage1 response.toList) = none →
      jsonLoads (channelAggressivePass (channelStage1 response.toList)) = none →
      channel_clean_json_response response title vc = channelFallback title vc) ∧
    (jsonLoads (channelStage1 ("\x7b\"a\": !\x7d").toList) = none) ∧
    (∀ (title : String) (vc : Nat),
      channel_clean_json_response "\x7b\"a\": !\x7d" title vc =
        Json.obj [("a", Json.null)]) := by
  refine ⟨?_, rfl, fun title vc => rfl⟩
  intro response title vc h1 h2
  unfold channel_clean_json_response
  dsimp only
  rw [h1, h2]

/-- C7 witness: on `"no json here"` both parse attempts fail and the
fallback record is returned. -/
theorem aggressive_repair_retry_witness :
    channel_clean_json_response "no json here" "Algebra" 4 =
      channelFallback "Algebra" 4 :=
  aggressive_repair_retry.1 "no json here" "Algebra" 4 rfl rfl

theorem safeApiCallAux_calls_le (predict : Nat → Except String String) :
    ∀ remaining attempt delay,
      (safeApiCallAux predict remaining attempt delay).calls ≤ remaining := by
  intro remaining
  induction remaining with
  | zero => intro attempt delay; simp [safeApiCallAux]
  | succ n ih =>
    intro attempt delay
    unfold safeApiCallAux
    dsimp only
    split
    · simp
    · split
      · simp
      · simpa using Nat.succ_le_succ (ih _ _)

/-- C1: the retry wrapper calls the capability at most `maxRetries` times;
with defaults it sleeps 3s then 6s before the second and third attempts
(doubling the delay); it returns the first successfully parsed record with
no further attempts; and when every attempt fails it returns (instead of
raising) the sentinel record carrying the last error string. -/
theorem safe_api_call_retry_spec :
    (∀ (predict : Nat → Except String String) (m d : Nat),
      (safe_api_call predict m d).calls ≤ m) ∧
    (∀ (predict : Nat → Except String String) (e0 e1 e2 : String),
      attemptOnce predict 0 = Except.error e0 →
      attemptOnce predict 1 = Except.error e1 →
      attemptOnce predict 2 = Except.error e2 →
      safe_api_call predict 3 3 = ⟨some (fallbackRecord e2), [3, 6], 3⟩) ∧
    (∀ (predict : Nat → Except String String) (r : Json) (d : Nat),
      attemptOnce predict 0 = Except.ok r →
      safe_api_call predict 3 d = ⟨some r, [], 1⟩) ∧
    (∀ (predict : Nat → Except String String) (e0 e1 : String) (r : Json),
      attemptOnce predict 0 = Except.error e0 →
      attemptOnce predict 1 = Except.error e1 →
      attemptOnce predict 2 = Except.ok r →
      safe_api_call predict 3 3 = ⟨some r, [3, 6], 3⟩) := by
  refine ⟨?_, ?_, ?_, ?_⟩
  · intro predict m d
    exact safeApiCallAux_calls_le predict m 0 d
  · intro predict e0 e1 e2 h0 h1 h2
    simp [safe_api_call, safeApiCallAux, h0, h1, h2]
  · intro predict r d h0
    simp [safe_api_call, safeApiCallAux, h0]
  · intro predict e0 e1 r h0 h1 h2
    simp [safe_api_call, safeApiCallAux, h0, h1, h2]

/-- C1 witness: an always-failing capability yields the sentinel with the
last error, after sleeps of 3 and 6 seconds and exactly 3 calls. -/
theorem safe_api_call_retry_spec_witness :
    safe_api_call (fun _ => Except.error "boom") 3 3 =
      ⟨some (fallbackRecord "boom"), [3, 6], 3⟩ :=
  safe_api_call_retry_spec.2.1 (fun _ => Except.error "boom")
    "boom" "boom" "boom" rfl rfl rfl

theorem countStep_eq (pn : Nat × Nat) (v : Verdict) :
    countStep pn v =
      if v.sentiment = "positive" then (pn.1 + 1, pn.2) else (pn.1, pn.2 + 1) := by
  unfold countStep
  dsimp only
  by_cases h : v.sentiment = "positive"
  · simp [h]
  · by_cases h2 : v.sentiment = "negative"
    · simp [h, h2]
    · simp [h, h2]

theorem countStep_foldl_sum (vs : List Verdict) :
    ∀ pn : Nat × Nat,
      (vs.foldl countStep pn).1 + (vs.foldl countStep pn).2 = pn.1 + pn.2 + vs.length := by
  induction vs with
  | nil => intro pn; simp
  | cons v rest ih =>
    intro pn
    simp only [List.foldl_cons, List.length_cons]
    rw [ih, countStep_eq]
    by_cases h : v.sentiment = "positive" <;> · simp [h]; try omega

theorem countStep_foldl_pos (vs : List Verdict) :
    ∀ pn : Nat × Nat,
      (vs.foldl countStep pn).1 =
        pn.1 + (vs.filter (fun v => v.sentiment = "positive")).length := by
  induction vs with
  | nil => intro pn; simp
  | cons v rest ih =>
    intro pn
    simp only [List.foldl_cons, List.filter_cons]
    rw [ih, countStep_eq]
    by_cases h : v.sentiment = "positive" <;> · simp [h]; try omega

theorem countStep_foldl_neg (vs : List Verdict) :
    ∀ pn : Nat × Nat,
      (vs.foldl countStep pn).2 =
        pn.2 + (vs.filter (fun v => ¬(v.sentiment = "positive"))).length := by
  induction vs with
  | nil => intro pn; simp
  | cons v rest ih =>
    intro pn
    simp only [List.foldl_cons, List.filter_cons]
    rw [ih, countStep_eq]
    by_cases h : v.sentiment = "positive" <;> · simp [h]; try omega

/-- C3 counterexample: a raw model label `"neutral"` survives unchanged in
the verdict produced by `analyze_comment_batch` — the returned verdicts
sequence is not normalized to `{positive, negative}`. -/
theorem sentiment_label_cex :
    ((analyze_comment_batch (fun _ => some [⟨some "neutral", some "high", ["ok"]⟩])
        [⟨"meh", 5⟩]).map Verdict.sentiment = ["neutral"]) ∧
    ("neutral" : String) ≠ "positive" ∧ ("neutral" : String) ≠ "negative" :=
  ⟨rfl, by decide, by decide⟩

/-- C3 amended: normalization to `{positive, negative}` happens only in the
accumulated counts (everything not exactly `"positive"` — including
`"neutral"` — is counted as negative, and a missing label defaults to
`"negative"` in the verdict); the verdicts sequence itself retains the raw
label, as the `"neutral"` instance shows. -/
theorem sentiment_label_amended :
    (∀ (vs : List Verdict) (pn : Nat × Nat),
      (vs.foldl countStep pn).1 =
          pn.1 + (vs.filter (fun v => v.sentiment = "positive")).length ∧
      (vs.foldl countStep pn).2 =
          pn.2 + (vs.filter (fun v => ¬(v.sentiment = "positive"))).length) ∧
    ((analyze_comment_batch (fun _ => some [⟨some "neutral", some "high", ["ok"]⟩])
        [⟨"meh", 5⟩]).map Verdict.sentiment = ["neutral"]) ∧
    ((display_sentiment_analysis (fun _ => some [⟨some "neutral", some "high", ["ok"]⟩])
        [⟨"meh", 5⟩]).2 = (0, 1)) ∧
    (∀ (c : Comment) (conf : Option String) (kp : List String),
      (analyze_comment_batch (fun _ => some [⟨none, conf, kp⟩]) [c]).map
          Verdict.sentiment = ["negative"]) :=
  ⟨fun vs pn => ⟨countStep_foldl_pos vs pn, countStep_foldl_neg vs pn⟩, rfl, rfl,
    fun _ _ _ => rfl⟩

theorem chunksOfGo_congr (B : Nat) :
    ∀ (f1 : Nat) (l : List α) (f2 : Nat), B ≠ 0 → l.length ≤ f1 → l.length ≤ f2 →
      chunksOfGo B f1 l = chunksOfGo B f2 l := by
  intro f1
  induction f1 with
  | zero =>
    intro l f2 hB h1 h2
    have hl : l = [] := List.eq_nil_of_length_eq_zero (Nat.le_zero.mp h1)
    subst hl
    cases f2 <;> simp [chunksOfGo]
  | succ g ih =>
    intro l f2 hB h1 h2
    cases l with
    | nil => cases f2 <;> simp [chunksOfGo]
    | cons x xs =>
      cases f2 with
      | zero => simp at h2
      | succ g2 =>
        simp only [chunksOfGo]
        congr 1
        apply ih _ _ hB
        · simp only [List.length_drop, List.length_cons] at *
          omega
        · simp only [List.length_drop, List.length_cons] at *
          omega

theorem chunksOf_cons_of_ne (B : Nat) (l : List α) (hB : B ≠ 0) (hl : l ≠ []) :
    chunksOf B l = l.take B :: chunksOf B (l.drop B) := by
  cases l with
  | nil => exact absurd rfl hl
  | cons x xs =>
    unfold chunksOf
    rw [if_neg hB, if_neg hB]
    simp only [List.length_cons, chunksOfGo]
    congr 1
    apply chunksOfGo_congr B _ _ _ hB
    · simp only [List.length_drop, List.length_cons]
      omega
    · exact Nat.le_refl _

theorem chunksOf_map_length_45 (l : List Comment) (h : l.length = 45) :
    (chunksOf 20 l).map List.length = [20, 20, 5] := by
  have h0 : l ≠ [] := by intro e; rw [e] at h; simp at h
  rw [chunksOf_cons_of_ne 20 l (by omega) h0]
  have hd1 : (l.drop 20).length = 25 := by simp [h]
  have h1 : l.drop 20 ≠ [] := by intro e; rw [e] at hd1; simp at hd1
  rw [chunksOf_cons_of_ne 20 _ (by omega) h1]
  have hd2 : ((l.drop 20).drop 20).length = 5 := by simp [h]
  have h2 : (l.drop 20).drop 20 ≠ [] := by intro e; rw [e] at hd2; simp at hd2
  rw [chunksOf_cons_of_ne 20 _ (by omega) h2]
  have hd3 : (((l.drop 20).drop 20).drop 20).length = 0 := by simp [h]
  have h3 : ((l.drop 20).drop 20).drop 20 = [] := List.eq_nil_of_length_eq_zero hd3
  rw [h3]
  simp [chunksOf, chunksOfGo, List.length_take, h, hd1, hd2]

theorem insertByLikesDesc_length (c : Comment) (l : List Comment) :
    (insertByLikesDesc c l).length = l.length + 1 := by
  induction l with
  | nil => rfl
  | cons d rest ih =>
    unfold insertByLikesDesc
    split
    · simp [ih]
    · simp

theorem pySortedByLikesDesc_length (cs : List Comment) :
    (pySortedByLikesDesc cs).length = cs.length := by
  induction cs with
  | nil => rfl
  | cons c rest ih => simp [pySortedByLikesDesc, insertByLikesDesc_length, ih]

theorem displayFold_sum (api : List Comment → Option (List RawResult))
    (batches : List (List Comment)) :
    ∀ acc : List Verdict × Nat × Nat,
      acc.2.1 + acc.2.2 = acc.1.length →
      (batches.foldl (displayStep api) acc).2.1 +
          (batches.foldl (displayStep api) acc).2.2 =
        (batches.foldl (displayStep api) acc).1.length := by
  induction batches with
  | nil => intro acc h; simpa using h
  | cons b rest ih =>
    intro acc h
    simp only [List.foldl_cons]
    apply ih
    unfold displayStep
    dsimp only
    rw [countStep_foldl_sum, List.length_append, h]

/-- C8: the sentiment aggregator takes the 100 most-liked comments,
partitions them into contiguous batches of `BATCH_SIZE` (45 comments with
batch size 20 give exactly batches of sizes 20, 20, 5), aligns each batch's
results positionally with the shorter sequence bounding the zip, and the
final counts satisfy `positive + negative = number of verdicts`. -/
theorem sentiment_batching_spec :
    (∀ comments : List Comment, comments.length = 45 →
      (chunksOf BATCH_SIZE ((pySortedByLikesDesc comments).take 100)).map List.length =
        [20, 20, 5]) ∧
    (∀ (api : List Comment → Option (List RawResult)) (batch : List Comment)
        (rs : List RawResult), api batch = some rs →
      (analyze_comment_batch api batch).length = min batch.length rs.length) ∧
    (∀ (api : List Comment → Option (List RawResult)) (batch : List Comment),
      api batch = none → analyze_comment_batch api batch = []) ∧
    (∀ (api : List Comment → Option (List RawResult)) (comments : List Comment),
      (display_sentiment_analysis api comments).2.1 +
          (display_sentiment_analysis api comments).2.2 =
        (display_sentiment_analysis api comments).1.length) := by
  refine ⟨?_, ?_, ?_, ?_⟩
  · intro comments h
    apply chunksOf_map_length_45
    simp [List.length_take, pySortedByLikesDesc_length, h]
  · intro api batch rs h
    simp [analyze_comment_batch, h, List.length_zip]
  · intro api batch h
    simp [analyze_comment_batch, h]
  · intro api comments
    unfold display_sentiment_analysis
    dsimp only
    split
    · simp
    · exact displayFold_sum api _ _ (by simp)

/-- C8 witness: 45 concrete comments produce exactly the batch sizes
20, 20, 5; a 2-comment batch against a 1-result response yields
`min 2 1 = 1` verdicts; a failed analysis yields no verdicts. -/
theorem sentiment_batching_spec_witness :
    ((List.replicate 45 (Comment.mk "c" 3)).length = 45 ∧
      (chunksOf BATCH_SIZE
          ((pySortedByLikesDesc (List.replicate 45 (Comment.mk "c" 3))).take 100)).map
          List.length = [20, 20, 5]) ∧
    ((analyze_comment_batch (fun _ => some [RawResult.mk (some "positive") none []])
        [Comment.mk "a" 1, Comment.mk "b" 2]).length = min 2 1) ∧
    (analyze_comment_batch (fun _ => none) [Comment.mk "a" 1] = []) :=
  ⟨⟨by simp, sentiment_batching_spec.1 (List.replicate 45 (Comment.mk "c" 3)) (by simp)⟩,
    sentiment_batching_spec.2.1 (fun _ => some [RawResult.mk (some "positive") none []])
      [Comment.mk "a" 1, Comment.mk "b" 2] [RawResult.mk (some "positive") none []] rfl,
    sentiment_batching_spec.2.2.1 (fun _ => none) [Comment.mk "a" 1] rfl⟩
